import Mathlib

/-!
Verification of the generic arm-control core of the mujoco-react example app:
the planar 2-link inverse/forward kinematics (src/controllers/ik2link.ts and
fk2link.ts) and the per-step teleoperation controller (useArmController.ts).

Numbers are modelled as real numbers; JavaScript `Math.atan2 y x` is modelled
as the argument of the complex number x + y*i (both lie in (-pi, pi] and agree
on every input expressible over the reals).
-/

namespace ArmCore

/-- JavaScript Math.atan2 y x, modelled as the complex argument of x + y*i. -/
noncomputable def atan2 (y x : ℝ) : ℝ := Complex.arg ⟨x, y⟩

/-- Linkage geometry record, from the LinkageParams interface in ik2link.ts. -/
structure LinkageParams where
  l1 : ℝ
  l2 : ℝ
  theta1Offset : ℝ
  theta2Offset : ℝ
  joint2Range : ℝ × ℝ
  joint3Range : ℝ × ℝ

/-- Default SO101 linkage constant from ik2link.ts. -/
noncomputable def SO101_LINKAGE : LinkageParams :=
  { l1 := 0.1159
    l2 := 0.1350
    theta1Offset := atan2 0.028 0.11257
    theta2Offset := atan2 0.0052 0.1349 + atan2 0.028 0.11257
    joint2Range := (-0.1, 3.45)
    joint3Range := (-0.2, Real.pi) }

/-- Radial distance r = sqrt(x*x + y*y) computed at the top of
inverseKinematics2Link. -/
noncomputable def ikR (x y : ℝ) : ℝ := Real.sqrt (x * x + y * y)

/-- The (x, y, r) triple after the full-extension clamp
(`if (r > rMax) { ... }` in ik2link.ts). -/
noncomputable def ikExt (x y : ℝ) (p : LinkageParams) : ℝ × ℝ × ℝ :=
  if p.l1 + p.l2 < ikR x y then
    (x * ((p.l1 + p.l2) / ikR x y), y * ((p.l1 + p.l2) / ikR x y), p.l1 + p.l2)
  else
    (x, y, ikR x y)

/-- The (x, y, r) triple after both reachability clamps: the retraction clamp
(`if (r < rMin && r > 0) { ... }` in ik2link.ts) applied to the result of the
extension clamp. -/
noncomputable def ikScaled (x y : ℝ) (p : LinkageParams) : ℝ × ℝ × ℝ :=
  if (ikExt x y p).2.2 < |p.l1 - p.l2| ∧ 0 < (ikExt x y p).2.2 then
    ((ikExt x y p).1 * (|p.l1 - p.l2| / (ikExt x y p).2.2),
     (ikExt x y p).2.1 * (|p.l1 - p.l2| / (ikExt x y p).2.2),
     |p.l1 - p.l2|)
  else
    ikExt x y p

/-- cosTheta2 = -(r*r - l1*l1 - l2*l2) / (2*l1*l2), on the clamped radius. -/
noncomputable def ikCosTheta2 (x y : ℝ) (p : LinkageParams) : ℝ :=
  -((ikScaled x y p).2.2 * (ikScaled x y p).2.2 - p.l1 * p.l1 - p.l2 * p.l2) /
    (2 * p.l1 * p.l2)

/-- The argument fed to acos: Math.max(-1, Math.min(1, cosTheta2)). -/
noncomputable def ikAcosArg (x y : ℝ) (p : LinkageParams) : ℝ :=
  max (-1) (min 1 (ikCosTheta2 x y p))

/-- theta2 = PI - acos(clamped cosTheta2). -/
noncomputable def ikTheta2 (x y : ℝ) (p : LinkageParams) : ℝ :=
  Real.pi - Real.arccos (ikAcosArg x y p)

/-- beta = atan2(y, x) on the clamped target. -/
noncomputable def ikBeta (x y : ℝ) (p : LinkageParams) : ℝ :=
  atan2 (ikScaled x y p).2.1 (ikScaled x y p).1

/-- gamma = atan2(l2*sin(theta2), l1 + l2*cos(theta2)). -/
noncomputable def ikGamma (x y : ℝ) (p : LinkageParams) : ℝ :=
  atan2 (p.l2 * Real.sin (ikTheta2 x y p)) (p.l1 + p.l2 * Real.cos (ikTheta2 x y p))

/-- theta1 = beta + gamma. -/
noncomputable def ikTheta1 (x y : ℝ) (p : LinkageParams) : ℝ :=
  ikBeta x y p + ikGamma x y p

/-- Math.max(lo, Math.min(hi, v)), the output clamp used in ik2link.ts. -/
noncomputable def clampR (lo hi v : ℝ) : ℝ := max lo (min hi v)

/-- inverseKinematics2Link from ik2link.ts: target (x, y) to the clamped
(joint2, joint3) pair. -/
noncomputable def inverseKinematics2Link (x y : ℝ) (p : LinkageParams) : ℝ × ℝ :=
  (clampR p.joint2Range.1 p.joint2Range.2 (ikTheta1 x y p + p.theta1Offset),
   clampR p.joint3Range.1 p.joint3Range.2 (ikTheta2 x y p + p.theta2Offset))

/-- r = sqrt(l1*l1 + l2*l2 + 2*l1*l2*cos(theta2)) in forwardKinematics2Link. -/
noncomputable def fkR (joint3 : ℝ) (p : LinkageParams) : ℝ :=
  Real.sqrt (p.l1 * p.l1 + p.l2 * p.l2 +
    2 * p.l1 * p.l2 * Real.cos (joint3 - p.theta2Offset))

/-- gamma = atan2(l2*sin(theta2), l1 + l2*cos(theta2)) in forwardKinematics2Link. -/
noncomputable def fkGamma (joint3 : ℝ) (p : LinkageParams) : ℝ :=
  atan2 (p.l2 * Real.sin (joint3 - p.theta2Offset))
    (p.l1 + p.l2 * Real.cos (joint3 - p.theta2Offset))

/-- forwardKinematics2Link from fk2link.ts: (joint2, joint3) to the
end-effector (x, y) = (r*cos(beta), r*sin(beta)) with beta = theta1 - gamma. -/
noncomputable def forwardKinematics2Link (joint2 joint3 : ℝ) (p : LinkageParams) : ℝ × ℝ :=
  (fkR joint3 p * Real.cos (joint2 - p.theta1Offset - fkGamma joint3 p),
   fkR joint3 p * Real.sin (joint2 - p.theta1Offset - fkGamma joint3 p))

lemma sqrt_mul_self_add (x y : ℝ) :
    ikR x y * ikR x y = x * x + y * y := by
  exact Real.mul_self_sqrt (add_nonneg (mul_self_nonneg x) (mul_self_nonneg y))

lemma polar_cos (x y : ℝ) : ikR x y * Real.cos (atan2 y x) = x := by
  by_cases h : (⟨x, y⟩ : ℂ) = 0
  · have hx : x = 0 := congrArg Complex.re h
    have hy : y = 0 := congrArg Complex.im h
    subst hx; subst hy
    simp [ikR]
  · have habs : ikR x y = Complex.abs ⟨x, y⟩ := by
      rw [Complex.abs_apply, Complex.normSq_mk, ikR]
    have hne : Complex.abs (⟨x, y⟩ : ℂ) ≠ 0 := by
      simpa using h
    rw [atan2, habs, Complex.cos_arg h]
    field_simp

lemma polar_sin (x y : ℝ) : ikR x y * Real.sin (atan2 y x) = y := by
  by_cases h : (⟨x, y⟩ : ℂ) = 0
  · have hx : x = 0 := congrArg Complex.re h
    have hy : y = 0 := congrArg Complex.im h
    subst hx; subst hy
    simp [ikR]
  · have habs : ikR x y = Complex.abs ⟨x, y⟩ := by
      rw [Complex.abs_apply, Complex.normSq_mk, ikR]
    have hne : Complex.abs (⟨x, y⟩ : ℂ) ≠ 0 := by
      simpa using h
    rw [atan2, habs, Complex.sin_arg]
    field_simp

lemma clampR_eq_self {lo hi v : ℝ} (h1 : lo ≤ v) (h2 : v ≤ hi) :
    clampR lo hi v = v := by
  unfold clampR
  rw [min_eq_right h2, max_eq_right h1]

lemma atan2_zero_of_nonneg {x : ℝ} (hx : 0 ≤ x) : atan2 0 x = 0 := by
  unfold atan2
  have h : (⟨x, 0⟩ : ℂ) = ((x : ℝ) : ℂ) := by
    apply Complex.ext <;> simp
  rw [h, Complex.arg_ofReal_of_nonneg hx]

lemma ikScaled_of_in_reach {p : LinkageParams} {x y : ℝ}
    (hlo : |p.l1 - p.l2| ≤ ikR x y) (hhi : ikR x y ≤ p.l1 + p.l2) :
    ikScaled x y p = (x, y, ikR x y) := by
  have hext : ikExt x y p = (x, y, ikR x y) := by
    unfold ikExt
    rw [if_neg (not_lt.mpr hhi)]
  unfold ikScaled
  rw [hext]
  have hno : ¬((x, y, ikR x y).2.2 < |p.l1 - p.l2| ∧ 0 < (x, y, ikR x y).2.2) := by
    intro hc
    exact absurd hc.1 (not_lt.mpr hlo)
  rw [if_neg hno]

/-- Claim C1: for every target (x, y) whose radial distance lies between rMin
and rMax for the given linkage (with positive link lengths), and provided
neither IK output is modified by the joint2Range/joint3Range clamping,
forward kinematics applied to the pair returned by inverse kinematics
reproduces (x, y) exactly. -/
theorem ik_fk_round_trip (p : LinkageParams) (x y : ℝ)
    (hl1 : 0 < p.l1) (hl2 : 0 < p.l2)
    (hlo : |p.l1 - p.l2| ≤ ikR x y) (hhi : ikR x y ≤ p.l1 + p.l2)
    (h2lo : p.joint2Range.1 ≤ ikTheta1 x y p + p.theta1Offset)
    (h2hi : ikTheta1 x y p + p.theta1Offset ≤ p.joint2Range.2)
    (h3lo : p.joint3Range.1 ≤ ikTheta2 x y p + p.theta2Offset)
    (h3hi : ikTheta2 x y p + p.theta2Offset ≤ p.joint3Range.2) :
    forwardKinematics2Link (inverseKinematics2Link x y p).1
      (inverseKinematics2Link x y p).2 p = (x, y) := by
  have hscaled : ikScaled x y p = (x, y, ikR x y) := ikScaled_of_in_reach hlo hhi
  have hr0 : 0 ≤ ikR x y := Real.sqrt_nonneg _
  have hrr := sqrt_mul_self_add x y
  have hden : (0:ℝ) < 2 * p.l1 * p.l2 := by positivity
  have hscsnd : (ikScaled x y p).2.2 = ikR x y := by rw [hscaled]
  have hcos : ikCosTheta2 x y p =
      -(ikR x y * ikR x y - p.l1 * p.l1 - p.l2 * p.l2) / (2 * p.l1 * p.l2) := by
    unfold ikCosTheta2
    rw [hscsnd]
  have h1 : (p.l1 - p.l2) * (p.l1 - p.l2) ≤ ikR x y * ikR x y := by
    have h := mul_self_le_mul_self (abs_nonneg (p.l1 - p.l2)) hlo
    rwa [abs_mul_abs_self] at h
  have h2 : ikR x y * ikR x y ≤ (p.l1 + p.l2) * (p.l1 + p.l2) :=
    mul_self_le_mul_self hr0 hhi
  have hc_le : ikCosTheta2 x y p ≤ 1 := by
    rw [hcos, div_le_one hden]
    nlinarith
  have hc_ge : (-1:ℝ) ≤ ikCosTheta2 x y p := by
    rw [hcos, le_div_iff₀ hden]
    nlinarith
  have hargeq : ikAcosArg x y p = ikCosTheta2 x y p := by
    unfold ikAcosArg
    rw [min_eq_right hc_le, max_eq_right hc_ge]
  have hcostheta : Real.cos (ikTheta2 x y p) = -ikCosTheta2 x y p := by
    unfold ikTheta2
    rw [hargeq, Real.cos_pi_sub, Real.cos_arccos hc_ge hc_le]
  have hik : inverseKinematics2Link x y p =
      (ikTheta1 x y p + p.theta1Offset, ikTheta2 x y p + p.theta2Offset) := by
    unfold inverseKinematics2Link
    rw [clampR_eq_self h2lo h2hi, clampR_eq_self h3lo h3hi]
  rw [hik]
  show forwardKinematics2Link (ikTheta1 x y p + p.theta1Offset)
      (ikTheta2 x y p + p.theta2Offset) p = (x, y)
  unfold forwardKinematics2Link
  have harg : ikTheta2 x y p + p.theta2Offset - p.theta2Offset = ikTheta2 x y p := by
    ring
  have hfkg : fkGamma (ikTheta2 x y p + p.theta2Offset) p = ikGamma x y p := by
    unfold fkGamma ikGamma
    rw [harg]
  have hval : p.l1 * p.l1 + p.l2 * p.l2 + 2 * p.l1 * p.l2 * -ikCosTheta2 x y p
      = x * x + y * y := by
    have h3 : 2 * p.l1 * p.l2 * -ikCosTheta2 x y p
        = ikR x y * ikR x y - p.l1 * p.l1 - p.l2 * p.l2 := by
      rw [hcos]
      field_simp
    rw [h3]
    linarith [hrr]
  have hfkr : fkR (ikTheta2 x y p + p.theta2Offset) p = ikR x y := by
    unfold fkR
    rw [harg, hcostheta, hval]
    rfl
  have hbeta : ikTheta1 x y p + p.theta1Offset - p.theta1Offset - ikGamma x y p
      = atan2 y x := by
    have hb1 : ikTheta1 x y p = ikBeta x y p + ikGamma x y p := rfl
    have hb2 : ikBeta x y p = atan2 y x := by
      unfold ikBeta
      rw [hscaled]
    rw [hb1, hb2]
    ring
  rw [hfkr, hfkg, hbeta, polar_cos, polar_sin]

/-- A wide-range unit linkage used as a concrete test geometry. -/
noncomputable def P1 : LinkageParams :=
  { l1 := 1, l2 := 1, theta1Offset := 0, theta2Offset := 0
    joint2Range := (-4, 4), joint3Range := (-4, 4) }

lemma P1_l1 : P1.l1 = 1 := rfl

lemma P1_l2 : P1.l2 = 1 := rfl

lemma P1_o1 : P1.theta1Offset = 0 := rfl

lemma P1_o2 : P1.theta2Offset = 0 := rfl

lemma ikR_two_zero : ikR 2 0 = 2 := by
  unfold ikR
  rw [show (2 * 2 + 0 * 0 : ℝ) = 2 ^ 2 by norm_num,
    Real.sqrt_sq (by norm_num : (0:ℝ) ≤ 2)]

lemma P1_scaled : ikScaled 2 0 P1 = (2, 0, 2) := by
  have h := ikScaled_of_in_reach (p := P1) (x := 2) (y := 0)
    (by rw [P1_l1, P1_l2, ikR_two_zero]; norm_num)
    (by rw [P1_l1, P1_l2, ikR_two_zero]; norm_num)
  rw [h, ikR_two_zero]

lemma P1_cosTheta2 : ikCosTheta2 2 0 P1 = -1 := by
  unfold ikCosTheta2
  rw [P1_scaled, P1_l1, P1_l2]
  norm_num

lemma P1_theta2 : ikTheta2 2 0 P1 = 0 := by
  unfold ikTheta2 ikAcosArg
  rw [P1_cosTheta2, min_eq_right (by norm_num : (-1:ℝ) ≤ 1),
    max_eq_right (le_refl (-1:ℝ)), Real.arccos_neg_one, sub_self]

lemma P1_beta : ikBeta 2 0 P1 = 0 := by
  unfold ikBeta
  rw [P1_scaled]
  exact atan2_zero_of_nonneg (by norm_num)

lemma P1_gamma : ikGamma 2 0 P1 = 0 := by
  unfold ikGamma
  rw [P1_theta2, P1_l1, P1_l2, Real.sin_zero, Real.cos_zero]
  rw [show (1 * 0 : ℝ) = 0 by norm_num]
  exact atan2_zero_of_nonneg (by norm_num)

lemma P1_theta1 : ikTheta1 2 0 P1 = 0 := by
  unfold ikTheta1
  rw [P1_beta, P1_gamma, add_zero]

/-- Witness for claim C1 at the fully stretched target (2, 0) on the unit
linkage P1: every hypothesis holds there and the round trip returns (2, 0). -/
theorem ik_fk_round_trip_witness :
    (0 < P1.l1) ∧ (0 < P1.l2) ∧
    (|P1.l1 - P1.l2| ≤ ikR 2 0) ∧ (ikR 2 0 ≤ P1.l1 + P1.l2) ∧
    (P1.joint2Range.1 ≤ ikTheta1 2 0 P1 + P1.theta1Offset) ∧
    (ikTheta1 2 0 P1 + P1.theta1Offset ≤ P1.joint2Range.2) ∧
    (P1.joint3Range.1 ≤ ikTheta2 2 0 P1 + P1.theta2Offset) ∧
    (ikTheta2 2 0 P1 + P1.theta2Offset ≤ P1.joint3Range.2) ∧
    forwardKinematics2Link (inverseKinematics2Link 2 0 P1).1
      (inverseKinematics2Link 2 0 P1).2 P1 = (2, 0) := by
  have e1 : (0:ℝ) < P1.l1 := by rw [P1_l1]; norm_num
  have e2 : (0:ℝ) < P1.l2 := by rw [P1_l2]; norm_num
  have e3 : |P1.l1 - P1.l2| ≤ ikR 2 0 := by
    rw [P1_l1, P1_l2, ikR_two_zero]; norm_num
  have e4 : ikR 2 0 ≤ P1.l1 + P1.l2 := by
    rw [P1_l1, P1_l2, ikR_two_zero]; norm_num
  have e5 : P1.joint2Range.1 ≤ ikTheta1 2 0 P1 + P1.theta1Offset := by
    rw [P1_theta1, P1_o1]
    show (-4:ℝ) ≤ 0 + 0
    norm_num
  have e6 : ikTheta1 2 0 P1 + P1.theta1Offset ≤ P1.joint2Range.2 := by
    rw [P1_theta1, P1_o1]
    show (0:ℝ) + 0 ≤ 4
    norm_num
  have e7 : P1.joint3Range.1 ≤ ikTheta2 2 0 P1 + P1.theta2Offset := by
    rw [P1_theta2, P1_o2]
    show (-4:ℝ) ≤ 0 + 0
    norm_num
  have e8 : ikTheta2 2 0 P1 + P1.theta2Offset ≤ P1.joint3Range.2 := by
    rw [P1_theta2, P1_o2]
    show (0:ℝ) + 0 ≤ 4
    norm_num
  exact ⟨e1, e2, e3, e4, e5, e6, e7, e8,
    ik_fk_round_trip P1 2 0 e1 e2 e3 e4 e5 e6 e7 e8⟩

/-- Claim C3: with positive link lengths, no division in
inverseKinematics2Link has a zero divisor (the extension clamp divides by r
only when r exceeds rMax > 0, the retraction clamp only when r > 0, and the
law-of-cosines divisor 2*l1*l2 is nonzero), the value fed to acos lies in
[-1, 1], and the target (0, 0) passes through both reachability clamps
unscaled. -/
theorem ik_safety (p : LinkageParams) (hl1 : 0 < p.l1) (hl2 : 0 < p.l2) :
    (∀ x y : ℝ, p.l1 + p.l2 < ikR x y → ikR x y ≠ 0) ∧
    (∀ x y : ℝ, (ikExt x y p).2.2 < |p.l1 - p.l2| ∧ 0 < (ikExt x y p).2.2 →
      (ikExt x y p).2.2 ≠ 0) ∧
    (2 * p.l1 * p.l2 ≠ 0) ∧
    (∀ x y : ℝ, -1 ≤ ikAcosArg x y p ∧ ikAcosArg x y p ≤ 1) ∧
    ikScaled 0 0 p = (0, 0, 0) := by
  refine ⟨?_, ?_, ?_, ?_, ?_⟩
  · intro x y h
    have h0 : (0:ℝ) < p.l1 + p.l2 := by positivity
    exact ne_of_gt (lt_trans h0 h)
  · intro x y h
    exact ne_of_gt h.2
  · have h0 : (0:ℝ) < 2 * p.l1 * p.l2 := by positivity
    exact ne_of_gt h0
  · intro x y
    exact ⟨le_max_left _ _, max_le (by norm_num) (min_le_left _ _)⟩
  · have h0 : ikR 0 0 = 0 := by
      unfold ikR
      rw [show (0 * 0 + 0 * 0 : ℝ) = 0 by norm_num, Real.sqrt_zero]
    have hext : ikExt 0 0 p = (0, 0, 0) := by
      unfold ikExt
      rw [h0]
      rw [if_neg (not_lt.mpr (by positivity : (0:ℝ) ≤ p.l1 + p.l2))]
    unfold ikScaled
    rw [hext]
    rw [if_neg]
    intro hc
    exact lt_irrefl (0:ℝ) hc.2

/-- Witness for claim C3 on the concrete linkage P1. -/
theorem ik_safety_witness :
    (0 < P1.l1) ∧ (0 < P1.l2) ∧
    ((∀ x y : ℝ, P1.l1 + P1.l2 < ikR x y → ikR x y ≠ 0) ∧
     (∀ x y : ℝ, (ikExt x y P1).2.2 < |P1.l1 - P1.l2| ∧ 0 < (ikExt x y P1).2.2 →
       (ikExt x y P1).2.2 ≠ 0) ∧
     (2 * P1.l1 * P1.l2 ≠ 0) ∧
     (∀ x y : ℝ, -1 ≤ ikAcosArg x y P1 ∧ ikAcosArg x y P1 ≤ 1) ∧
     ikScaled 0 0 P1 = (0, 0, 0)) := by
  have e1 : (0:ℝ) < P1.l1 := by rw [P1_l1]; norm_num
  have e2 : (0:ℝ) < P1.l2 := by rw [P1_l2]; norm_num
  exact ⟨e1, e2, ik_safety P1 e1 e2⟩

lemma ikR_scale {x y : ℝ} (c : ℝ) (hc : 0 ≤ c) :
    ikR (x * c) (y * c) = c * ikR x y := by
  unfold ikR
  have h : x * c * (x * c) + y * c * (y * c) = c ^ 2 * (x * x + y * y) := by ring
  rw [h, Real.sqrt_mul (sq_nonneg c), Real.sqrt_sq hc]

lemma ik_scaled_congr {p : LinkageParams} {x y x' y' : ℝ}
    (h : ikScaled x y p = ikScaled x' y' p) :
    inverseKinematics2Link x y p = inverseKinematics2Link x' y' p := by
  have h2 : ikTheta2 x y p = ikTheta2 x' y' p := by
    unfold ikTheta2 ikAcosArg ikCosTheta2
    rw [h]
  have hb : ikBeta x y p = ikBeta x' y' p := by
    unfold ikBeta
    rw [h]
  have hg : ikGamma x y p = ikGamma x' y' p := by
    unfold ikGamma
    rw [h2]
  unfold inverseKinematics2Link ikTheta1
  rw [hb, hg, h2]

/-- Claim C4: a target beyond rMax = l1 + l2 is resolved exactly as the point
scaled back to distance rMax along the same direction, and a target with
0 < r < rMin = |l1 - l2| is resolved exactly as the point scaled out to
distance rMin along the same direction. -/
theorem ik_clamp_boundary (p : LinkageParams) (x y : ℝ)
    (hl1 : 0 < p.l1) (hl2 : 0 < p.l2) :
    (p.l1 + p.l2 < ikR x y →
      ikScaled x y p = (x * ((p.l1 + p.l2) / ikR x y),
        y * ((p.l1 + p.l2) / ikR x y), p.l1 + p.l2) ∧
      ikR (x * ((p.l1 + p.l2) / ikR x y)) (y * ((p.l1 + p.l2) / ikR x y))
        = p.l1 + p.l2 ∧
      inverseKinematics2Link x y p = inverseKinematics2Link
        (x * ((p.l1 + p.l2) / ikR x y)) (y * ((p.l1 + p.l2) / ikR x y)) p) ∧
    (0 < ikR x y ∧ ikR x y < |p.l1 - p.l2| →
      ikScaled x y p = (x * (|p.l1 - p.l2| / ikR x y),
        y * (|p.l1 - p.l2| / ikR x y), |p.l1 - p.l2|) ∧
      ikR (x * (|p.l1 - p.l2| / ikR x y)) (y * (|p.l1 - p.l2| / ikR x y))
        = |p.l1 - p.l2| ∧
      inverseKinematics2Link x y p = inverseKinematics2Link
        (x * (|p.l1 - p.l2| / ikR x y)) (y * (|p.l1 - p.l2| / ikR x y)) p) := by
  have habs : |p.l1 - p.l2| < p.l1 + p.l2 :=
    abs_lt.mpr ⟨by linarith, by linarith⟩
  constructor
  · intro hout
    have hr0 : 0 < ikR x y := lt_trans (by positivity) hout
    have hs0 : 0 < (p.l1 + p.l2) / ikR x y := div_pos (by positivity) hr0
    have hext : ikExt x y p = (x * ((p.l1 + p.l2) / ikR x y),
        y * ((p.l1 + p.l2) / ikR x y), p.l1 + p.l2) := by
      unfold ikExt
      rw [if_pos hout]
    have hsc1 : ikScaled x y p = (x * ((p.l1 + p.l2) / ikR x y),
        y * ((p.l1 + p.l2) / ikR x y), p.l1 + p.l2) := by
      unfold ikScaled
      rw [hext]
      rw [if_neg]
      intro hc
      exact absurd hc.1 (not_lt.mpr habs.le)
    have hnorm : ikR (x * ((p.l1 + p.l2) / ikR x y))
        (y * ((p.l1 + p.l2) / ikR x y)) = p.l1 + p.l2 := by
      rw [ikR_scale _ hs0.le, div_mul_cancel₀ _ (ne_of_gt hr0)]
    have hext2 : ikExt (x * ((p.l1 + p.l2) / ikR x y))
        (y * ((p.l1 + p.l2) / ikR x y)) p
        = (x * ((p.l1 + p.l2) / ikR x y),
           y * ((p.l1 + p.l2) / ikR x y), p.l1 + p.l2) := by
      unfold ikExt
      rw [hnorm]
      rw [if_neg (lt_irrefl _)]
    have hsc2 : ikScaled (x * ((p.l1 + p.l2) / ikR x y))
        (y * ((p.l1 + p.l2) / ikR x y)) p
        = (x * ((p.l1 + p.l2) / ikR x y),
           y * ((p.l1 + p.l2) / ikR x y), p.l1 + p.l2) := by
      unfold ikScaled
      rw [hext2]
      rw [if_neg]
      intro hc
      exact absurd hc.1 (not_lt.mpr habs.le)
    exact ⟨hsc1, hnorm, ik_scaled_congr (by rw [hsc1, hsc2])⟩
  · intro hin
    obtain ⟨hpos, hlt⟩ := hin
    have hrmin0 : 0 < |p.l1 - p.l2| := lt_trans hpos hlt
    have hs0 : 0 < |p.l1 - p.l2| / ikR x y := div_pos hrmin0 hpos
    have hext : ikExt x y p = (x, y, ikR x y) := by
      unfold ikExt
      rw [if_neg (not_lt.mpr (le_of_lt (lt_of_lt_of_le hlt habs.le)))]
    have hsc1 : ikScaled x y p = (x * (|p.l1 - p.l2| / ikR x y),
        y * (|p.l1 - p.l2| / ikR x y), |p.l1 - p.l2|) := by
      unfold ikScaled
      rw [hext]
      rw [if_pos]
      exact ⟨hlt, hpos⟩
    have hnorm : ikR (x * (|p.l1 - p.l2| / ikR x y))
        (y * (|p.l1 - p.l2| / ikR x y)) = |p.l1 - p.l2| := by
      rw [ikR_scale _ hs0.le, div_mul_cancel₀ _ (ne_of_gt hpos)]
    have hext2 : ikExt (x * (|p.l1 - p.l2| / ikR x y))
        (y * (|p.l1 - p.l2| / ikR x y)) p
        = (x * (|p.l1 - p.l2| / ikR x y),
           y * (|p.l1 - p.l2| / ikR x y), |p.l1 - p.l2|) := by
      unfold ikExt
      rw [hnorm]
      rw [if_neg (not_lt.mpr habs.le)]
    have hsc2 : ikScaled (x * (|p.l1 - p.l2| / ikR x y))
        (y * (|p.l1 - p.l2| / ikR x y)) p
        = (x * (|p.l1 - p.l2| / ikR x y),
           y * (|p.l1 - p.l2| / ikR x y), |p.l1 - p.l2|) := by
      unfold ikScaled
      rw [hext2]
      rw [if_neg]
      intro hc
      exact absurd hc.1 (lt_irrefl _)
    exact ⟨hsc1, hnorm, ik_scaled_congr (by rw [hsc1, hsc2])⟩

/-- Witness for claim C4 on the concrete linkage P1. -/
theorem ik_clamp_boundary_witness :
    (0 < P1.l1) ∧ (0 < P1.l2) ∧
    ((P1.l1 + P1.l2 < ikR 3 0 →
      ikScaled 3 0 P1 = (3 * ((P1.l1 + P1.l2) / ikR 3 0),
        0 * ((P1.l1 + P1.l2) / ikR 3 0), P1.l1 + P1.l2) ∧
      ikR (3 * ((P1.l1 + P1.l2) / ikR 3 0)) (0 * ((P1.l1 + P1.l2) / ikR 3 0))
        = P1.l1 + P1.l2 ∧
      inverseKinematics2Link 3 0 P1 = inverseKinematics2Link
        (3 * ((P1.l1 + P1.l2) / ikR 3 0)) (0 * ((P1.l1 + P1.l2) / ikR 3 0)) P1) ∧
    (0 < ikR 3 0 ∧ ikR 3 0 < |P1.l1 - P1.l2| →
      ikScaled 3 0 P1 = (3 * (|P1.l1 - P1.l2| / ikR 3 0),
        0 * (|P1.l1 - P1.l2| / ikR 3 0), |P1.l1 - P1.l2|) ∧
      ikR (3 * (|P1.l1 - P1.l2| / ikR 3 0)) (0 * (|P1.l1 - P1.l2| / ikR 3 0))
        = |P1.l1 - P1.l2| ∧
      inverseKinematics2Link 3 0 P1 = inverseKinematics2Link
        (3 * (|P1.l1 - P1.l2| / ikR 3 0)) (0 * (|P1.l1 - P1.l2| / ikR 3 0)) P1)) := by
  have e1 : (0:ℝ) < P1.l1 := by rw [P1_l1]; norm_num
  have e2 : (0:ℝ) < P1.l2 := by rw [P1_l2]; norm_num
  exact ⟨e1, e2, ik_clamp_boundary P1 3 0 e1 e2⟩

lemma norm_polar (R t : ℝ) (hR : 0 ≤ R) :
    ikR (R * Real.cos t) (R * Real.sin t) = R := by
  unfold ikR
  have h : R * Real.cos t * (R * Real.cos t) + R * Real.sin t * (R * Real.sin t)
      = R ^ 2 * (Real.cos t ^ 2 + Real.sin t ^ 2) := by ring
  rw [h, Real.cos_sq_add_sin_sq, mul_one, Real.sqrt_sq hR]

/-- Claim C10: with positive link lengths, the point returned by
forwardKinematics2Link always lies in the reachable annulus: its distance
from the origin is between |l1 - l2| and l1 + l2 inclusive. -/
theorem fk_in_annulus (p : LinkageParams) (hl1 : 0 < p.l1) (hl2 : 0 < p.l2) :
    ∀ joint2 joint3 : ℝ,
      |p.l1 - p.l2| ≤ ikR (forwardKinematics2Link joint2 joint3 p).1
        (forwardKinematics2Link joint2 joint3 p).2 ∧
      ikR (forwardKinematics2Link joint2 joint3 p).1
        (forwardKinematics2Link joint2 joint3 p).2 ≤ p.l1 + p.l2 := by
  intro j2 j3
  have hc1 : -1 ≤ Real.cos (j3 - p.theta2Offset) := Real.neg_one_le_cos _
  have hc2 : Real.cos (j3 - p.theta2Offset) ≤ 1 := Real.cos_le_one _
  have h1 : (forwardKinematics2Link j2 j3 p).1
      = fkR j3 p * Real.cos (j2 - p.theta1Offset - fkGamma j3 p) := rfl
  have h2 : (forwardKinematics2Link j2 j3 p).2
      = fkR j3 p * Real.sin (j2 - p.theta1Offset - fkGamma j3 p) := rfl
  have hfkR0 : 0 ≤ fkR j3 p := Real.sqrt_nonneg _
  rw [h1, h2, norm_polar _ _ hfkR0]
  constructor
  · have hlo : (p.l1 - p.l2) * (p.l1 - p.l2) ≤ p.l1 * p.l1 + p.l2 * p.l2 +
        2 * p.l1 * p.l2 * Real.cos (j3 - p.theta2Offset) := by
      nlinarith [mul_nonneg (mul_nonneg hl1.le hl2.le)
        (by linarith : (0:ℝ) ≤ Real.cos (j3 - p.theta2Offset) + 1)]
    have := Real.sqrt_le_sqrt hlo
    rwa [Real.sqrt_mul_self_eq_abs] at this
  · have hhi : p.l1 * p.l1 + p.l2 * p.l2 +
        2 * p.l1 * p.l2 * Real.cos (j3 - p.theta2Offset)
        ≤ (p.l1 + p.l2) * (p.l1 + p.l2) := by
      nlinarith [mul_nonneg (mul_nonneg hl1.le hl2.le)
        (by linarith : (0:ℝ) ≤ 1 - Real.cos (j3 - p.theta2Offset))]
    have h := Real.sqrt_le_sqrt hhi
    rwa [Real.sqrt_mul_self_eq_abs, abs_of_nonneg (by positivity : (0:ℝ) ≤ p.l1 + p.l2)] at h

/-!
The per-step teleoperation controller of useArmController.ts.

Key identifiers (KeyboardEvent.code strings in the source) are modelled as an
opaque countable type, ℕ; a per-step key snapshot is a lookup function
Key → Bool, as in the source's held-key map. The actuator command array
data.ctrl is modelled as a total function ℕ → ℝ; each write is additionally
logged as an (index, value) event so that frame properties ("this entry is
not written at all") are expressible. Calls to the optional external IK
subsystem (syncTargetToSite / setIkEnabled) are logged as events as well.
-/

/-- Opaque key identifier (KeyboardEvent.code in the source). -/
abbrev Key := ℕ

/-- Per-arm configuration record (ArmConfig in useArmController.ts). -/
structure ArmConfig where
  indices : List ℕ
  keys : List Key
  initialJoints : Option (List ℝ)
  initialRotation : Option ℝ
  initialRoll : Option ℝ
  linkage : Option LinkageParams
  tipLength : Option ℝ
  gripperOpen : Option ℝ
  gripperClosed : Option ℝ

/-- Mobile-base configuration (BaseConfig in useArmController.ts). -/
structure BaseConfig where
  indices : ℕ × ℕ
  keys : Key × Key × Key × Key
  speed : Option ℝ

/-- Per-arm mutable controller state (the armStates entries). -/
structure ArmState where
  targetJoints : List ℝ
  eePos : ℝ × ℝ
  pitch : ℝ
  gripperOpen : Bool
  gripperKeyWasDown : Bool
  controlActive : Bool
  ikWasEnabled : Bool

/-- Simulation-side state touched by the controller: the actuator command
array and the external IK subsystem's enable flag. -/
structure World where
  ctrl : ℕ → ℝ
  ikEnabled : Bool

/-- A call into the optional external IK subsystem. -/
inductive IkCall where
  | sync : IkCall
  | setEnabled : Bool → IkCall
deriving DecidableEq

/-- Intermediate result of a handoff phase: updated arm state, updated
world, and the external IK calls issued. -/
structure Handoff where
  state : ArmState
  world : World
  calls : List IkCall

/-- Full result of one controller step for one arm. -/
structure StepOut where
  state : ArmState
  world : World
  calls : List IkCall
  writes : List (ℕ × ℝ)

/-- JOINT_STEP constant. -/
noncomputable def JOINT_STEP : ℝ := 0.01

/-- EE_STEP constant. -/
noncomputable def EE_STEP : ℝ := 0.001

/-- PITCH_STEP constant. -/
noncomputable def PITCH_STEP : ℝ := 0.012

/-- INITIAL_EE constant. -/
noncomputable def INITIAL_EE : ℝ × ℝ := (0.162, 0.118)

/-- Linkage used by an arm: arm.linkage with SO101 default. -/
noncomputable def armLinkage (arm : ArmConfig) : LinkageParams :=
  arm.linkage.getD SO101_LINKAGE

/-- Tip length with its 0.108 default. -/
noncomputable def armTip (arm : ArmConfig) : ℝ :=
  arm.tipLength.getD 0.108

/-- Gripper open angle with its 1.5 default. -/
noncomputable def gOpenVal (arm : ArmConfig) : ℝ :=
  arm.gripperOpen.getD 1.5

/-- Gripper closed angle with its -0.25 default. -/
noncomputable def gClosedVal (arm : ArmConfig) : ℝ :=
  arm.gripperClosed.getD (-0.25)

/-- k[ak[j]] in the source: look up the j-th bound key in the snapshot; an
out-of-range binding (ak[j] undefined) reads as not held. -/
def armKey (arm : ArmConfig) (k : Key → Bool) (j : ℕ) : Bool :=
  match arm.keys.get? j with
  | some c => k c
  | none => false

/-- "Any of the 10 non-gripper movement keys is held": the source loop
`for (j = 0; j < 10 && j < ak.length; j++)`. -/
def anyArmKey (arm : ArmConfig) (k : Key → Bool) : Bool :=
  (arm.keys.take 10).any k

/-- Controller construction for one arm (the armStates initializer in
useArmController). targetJoints is a zero-initialized array of length
|indices|; an explicit initialJoints list is copied only on the first
min(|initialJoints|, |indices|) slots, eePos/pitch are back-derived from it
only when it has at least 3/4 entries; otherwise the default pose is solved
by inverse kinematics. -/
noncomputable def armInit (arm : ArmConfig) : ArmState :=
  match arm.initialJoints with
  | some ij =>
    { targetJoints := (List.range arm.indices.length).map
        (fun j => if j < ij.length then ij.getD j 0 else 0)
      eePos := if 3 ≤ ij.length then
          forwardKinematics2Link (ij.getD 1 0) (ij.getD 2 0) (armLinkage arm)
        else INITIAL_EE
      pitch := if 4 ≤ ij.length then ij.getD 3 0 - ij.getD 1 0 + ij.getD 2 0 else 0
      gripperOpen := false
      gripperKeyWasDown := false
      controlActive := false
      ikWasEnabled := false }
  | none =>
    { targetJoints :=
        ((((((List.replicate arm.indices.length (0:ℝ)).set 0
          (arm.initialRotation.getD 0)).set 1
          (inverseKinematics2Link INITIAL_EE.1 INITIAL_EE.2 (armLinkage arm)).1).set 2
          (inverseKinematics2Link INITIAL_EE.1 INITIAL_EE.2 (armLinkage arm)).2).set 3
          ((inverseKinematics2Link INITIAL_EE.1 INITIAL_EE.2 (armLinkage arm)).1 -
           (inverseKinematics2Link INITIAL_EE.1 INITIAL_EE.2 (armLinkage arm)).2)).set 4
          (arm.initialRoll.getD 0)).set 5 (gClosedVal arm)
      eePos := INITIAL_EE
      pitch := 0
      gripperOpen := false
      gripperKeyWasDown := false
      controlActive := false
      ikWasEnabled := false }

/-- IDLE to KEYBOARD_ACTIVE transition block (the
`if (anyArmKey && !s.controlActive)` block): copy current ctrl values into
targetJoints, back-derive eePos and pitch, snapshot the external IK enable
flag and disable the external IK if it was enabled. -/
noncomputable def seizePhase (arm : ArmConfig) (ikPresent : Bool)
    (k : Key → Bool) (w : World) (s : ArmState) : Handoff :=
  if anyArmKey arm k && !s.controlActive then
    { state :=
        { s with
          targetJoints := arm.indices.map w.ctrl
          eePos := forwardKinematics2Link ((arm.indices.map w.ctrl).getD 1 0)
            ((arm.indices.map w.ctrl).getD 2 0) (armLinkage arm)
          pitch := (arm.indices.map w.ctrl).getD 3 0 -
            (arm.indices.map w.ctrl).getD 1 0 + (arm.indices.map w.ctrl).getD 2 0
          ikWasEnabled := ikPresent && w.ikEnabled
          controlActive := true }
      world := { w with ikEnabled :=
        if ikPresent && w.ikEnabled then false else w.ikEnabled }
      calls := if ikPresent && w.ikEnabled then [IkCall.setEnabled false] else [] }
  else
    { state := s, world := w, calls := [] }

/-- KEYBOARD_ACTIVE to IDLE transition block (the `if (!anyArmKey)` block):
when keyboard control was active and external IK had been enabled at seizure
time, re-sync the IK target to the site and re-enable it; always deactivate.
-/
noncomputable def releasePhase (arm : ArmConfig) (ikPresent : Bool)
    (k : Key → Bool) (w : World) (s : ArmState) : Handoff :=
  if !anyArmKey arm k then
    { state := { s with controlActive := false }
      world := { w with ikEnabled :=
        if s.controlActive && s.ikWasEnabled && ikPresent then true else w.ikEnabled }
      calls := if s.controlActive && s.ikWasEnabled && ikPresent then
          [IkCall.sync, IkCall.setEnabled true]
        else [] }
  else
    { state := s, world := w, calls := [] }

/-- The per-step key increments: shoulder rotation, end-effector cursor,
wrist pitch and wrist roll (source lines under "Shoulder rotation" through
"Wrist roll"). -/
noncomputable def movePhase (arm : ArmConfig) (k : Key → Bool) (s : ArmState) :
    ArmState :=
  let tj0 := s.targetJoints
  let tj1 := if armKey arm k 0 then tj0.set 0 (tj0.getD 0 0 + JOINT_STEP) else tj0
  let tj2 := if armKey arm k 1 then tj1.set 0 (tj1.getD 0 0 - JOINT_STEP) else tj1
  let ex0 := s.eePos.1
  let ex1 := if armKey arm k 2 then ex0 + EE_STEP else ex0
  let ex2 := if armKey arm k 3 then ex1 - EE_STEP else ex1
  let ey0 := s.eePos.2
  let ey1 := if armKey arm k 4 then ey0 + EE_STEP else ey0
  let ey2 := if armKey arm k 5 then ey1 - EE_STEP else ey1
  let pc0 := s.pitch
  let pc1 := if armKey arm k 6 then pc0 + PITCH_STEP else pc0
  let pc2 := if armKey arm k 7 then pc1 - PITCH_STEP else pc1
  let tj3 := if armKey arm k 8 then tj2.set 4 (tj2.getD 4 0 + JOINT_STEP * 3) else tj2
  let tj4 := if armKey arm k 9 then tj3.set 4 (tj3.getD 4 0 - JOINT_STEP * 3) else tj3
  { s with targetJoints := tj4, eePos := (ex2, ey2), pitch := pc2 }

/-- The gripper toggle block: rising-edge detection on key index 10; on the
not-held-to-held transition the latch flips and targetJoints[5] is set to the
open/closed angle; gripperKeyWasDown always tracks the current key state. -/
noncomputable def gripperPhase (arm : ArmConfig) (k : Key → Bool) (s : ArmState) :
    ArmState :=
  if armKey arm k 10 && !s.gripperKeyWasDown then
    { s with
      gripperOpen := !s.gripperOpen
      targetJoints := s.targetJoints.set 5
        (if !s.gripperOpen then gOpenVal arm else gClosedVal arm)
      gripperKeyWasDown := armKey arm k 10 }
  else
    { s with gripperKeyWasDown := armKey arm k 10 }

/-- The every-step IK solve: compensated target y, 2-link solve, and the
cascaded wrist pitch targetJoints[3] = j2 - j3 + pitch. -/
noncomputable def solvePhase (arm : ArmConfig) (s : ArmState) : ArmState :=
  let compY := s.eePos.2 + armTip arm * Real.sin s.pitch
  let jj := inverseKinematics2Link s.eePos.1 compY (armLinkage arm)
  { s with targetJoints :=
      ((s.targetJoints.set 1 jj.1).set 2 jj.2).set 3 (jj.1 - jj.2 + s.pitch) }

/-- The actuator-write block: all of the arm's actuators are written only
while controlActive, and the gripper actuator (last index) is written
unconditionally. Returns the updated ctrl array and the ordered write log. -/
noncomputable def writePhase (arm : ArmConfig) (s : ArmState) (ctrl : ℕ → ℝ) :
    (ℕ → ℝ) × List (ℕ × ℝ) :=
  let base := if s.controlActive then
      (List.range arm.indices.length).map
        (fun j => (arm.indices.getD j 0, s.targetJoints.getD j 0))
    else []
  let wr := match arm.indices.getLast? with
    | some gi => base ++ [(gi, s.targetJoints.getD (arm.indices.length - 1) 0)]
    | none => base
  (wr.foldl (fun c iv => Function.update c iv.1 iv.2) ctrl, wr)

/-- One full controller step for one arm, in source order: activity-edge
handoff blocks, key increments, gripper toggle, IK solve, actuator writes. -/
noncomputable def armStep (arm : ArmConfig) (ikPresent : Bool)
    (k : Key → Bool) (s : ArmState) (w : World) : StepOut :=
  let a := seizePhase arm ikPresent k w s
  let b := releasePhase arm ikPresent k a.world a.state
  let s5 := solvePhase arm (gripperPhase arm k (movePhase arm k b.state))
  let c := writePhase arm s5 b.world.ctrl
  { state := s5
    world := { b.world with ctrl := c.1 }
    calls := a.calls ++ b.calls
    writes := c.2 }

/-- Iterated controller steps over a list of per-step key snapshots. -/
noncomputable def armRun (arm : ArmConfig) (ikPresent : Bool)
    (ks : List (Key → Bool)) (s : ArmState) (w : World) : ArmState × World :=
  ks.foldl (fun p kk =>
    ((armStep arm ikPresent kk p.1 p.2).state,
     (armStep arm ikPresent kk p.1 p.2).world)) (s, w)

/-- One drive-axis update of the mobile base: forward key writes vA, back
key writes vB, otherwise zero is written exactly once on the step after
release (prev flag set), else nothing is written. Returns updated ctrl, the
new prev-active flag and the write log. -/
noncomputable def driveAxis (kA kB : Bool) (vA vB : ℝ) (idx : ℕ) (prev : Bool)
    (ctrl : ℕ → ℝ) : (ℕ → ℝ) × Bool × List (ℕ × ℝ) :=
  if kA then (Function.update ctrl idx vA, true, [(idx, vA)])
  else if kB then (Function.update ctrl idx vB, true, [(idx, vB)])
  else if prev then (Function.update ctrl idx 0, false, [(idx, 0)])
  else (ctrl, false, [])

/-- The base block of the controller step: linear axis (keys forward and
back, values -speed and speed) then angular axis (keys turnLeft and
turnRight, values speed and -speed). -/
noncomputable def baseStep (b : BaseConfig) (k : Key → Bool)
    (prev : Bool × Bool) (ctrl : ℕ → ℝ) :
    (ℕ → ℝ) × (Bool × Bool) × List (ℕ × ℝ) :=
  let sp := b.speed.getD 1
  let a0 := driveAxis (k b.keys.1) (k b.keys.2.1) (-sp) sp b.indices.1 prev.1 ctrl
  let a1 := driveAxis (k b.keys.2.2.1) (k b.keys.2.2.2) sp (-sp) b.indices.2
    prev.2 a0.1
  (a1.1, (a0.2.1, a1.2.1), a0.2.2 ++ a1.2.2)

lemma seizePhase_gripperOpen (arm : ArmConfig) (ikP : Bool) (k : Key → Bool)
    (w : World) (s : ArmState) :
    (seizePhase arm ikP k w s).state.gripperOpen = s.gripperOpen := by
  unfold seizePhase
  split <;> rfl

lemma seizePhase_gripperKeyWasDown (arm : ArmConfig) (ikP : Bool) (k : Key → Bool)
    (w : World) (s : ArmState) :
    (seizePhase arm ikP k w s).state.gripperKeyWasDown = s.gripperKeyWasDown := by
  unfold seizePhase
  split <;> rfl

lemma releasePhase_gripperOpen (arm : ArmConfig) (ikP : Bool) (k : Key → Bool)
    (w : World) (s : ArmState) :
    (releasePhase arm ikP k w s).state.gripperOpen = s.gripperOpen := by
  unfold releasePhase
  split <;> rfl

lemma releasePhase_gripperKeyWasDown (arm : ArmConfig) (ikP : Bool)
    (k : Key → Bool) (w : World) (s : ArmState) :
    (releasePhase arm ikP k w s).state.gripperKeyWasDown = s.gripperKeyWasDown := by
  unfold releasePhase
  split <;> rfl

lemma movePhase_gripperOpen (arm : ArmConfig) (k : Key → Bool) (s : ArmState) :
    (movePhase arm k s).gripperOpen = s.gripperOpen := rfl

lemma movePhase_gripperKeyWasDown (arm : ArmConfig) (k : Key → Bool) (s : ArmState) :
    (movePhase arm k s).gripperKeyWasDown = s.gripperKeyWasDown := rfl

lemma solvePhase_gripperOpen (arm : ArmConfig) (s : ArmState) :
    (solvePhase arm s).gripperOpen = s.gripperOpen := rfl

lemma solvePhase_gripperKeyWasDown (arm : ArmConfig) (s : ArmState) :
    (solvePhase arm s).gripperKeyWasDown = s.gripperKeyWasDown := rfl

lemma gripperPhase_gripperKeyWasDown (arm : ArmConfig) (k : Key → Bool)
    (s : ArmState) :
    (gripperPhase arm k s).gripperKeyWasDown = armKey arm k 10 := by
  unfold gripperPhase
  split <;> rfl

lemma gripperPhase_gripperOpen (arm : ArmConfig) (k : Key → Bool) (s : ArmState) :
    (gripperPhase arm k s).gripperOpen =
      (if armKey arm k 10 && !s.gripperKeyWasDown then !s.gripperOpen
        else s.gripperOpen) := by
  unfold gripperPhase
  split <;> simp_all

lemma armStep_gripperKeyWasDown (arm : ArmConfig) (ikP : Bool) (k : Key → Bool)
    (s : ArmState) (w : World) :
    (armStep arm ikP k s w).state.gripperKeyWasDown = armKey arm k 10 := by
  unfold armStep
  rw [solvePhase_gripperKeyWasDown, gripperPhase_gripperKeyWasDown]

lemma armStep_gripperOpen (arm : ArmConfig) (ikP : Bool) (k : Key → Bool)
    (s : ArmState) (w : World) :
    (armStep arm ikP k s w).state.gripperOpen =
      (if armKey arm k 10 && !s.gripperKeyWasDown then !s.gripperOpen
        else s.gripperOpen) := by
  unfold armStep
  rw [solvePhase_gripperOpen, gripperPhase_gripperOpen, movePhase_gripperOpen,
    movePhase_gripperKeyWasDown, releasePhase_gripperOpen,
    releasePhase_gripperKeyWasDown, seizePhase_gripperOpen,
    seizePhase_gripperKeyWasDown]

lemma movePhase_controlActive (arm : ArmConfig) (k : Key → Bool) (s : ArmState) :
    (movePhase arm k s).controlActive = s.controlActive := rfl

lemma movePhase_ikWasEnabled (arm : ArmConfig) (k : Key → Bool) (s : ArmState) :
    (movePhase arm k s).ikWasEnabled = s.ikWasEnabled := rfl

lemma gripperPhase_controlActive (arm : ArmConfig) (k : Key → Bool) (s : ArmState) :
    (gripperPhase arm k s).controlActive = s.controlActive := by
  unfold gripperPhase
  split <;> rfl

lemma gripperPhase_ikWasEnabled (arm : ArmConfig) (k : Key → Bool) (s : ArmState) :
    (gripperPhase arm k s).ikWasEnabled = s.ikWasEnabled := by
  unfold gripperPhase
  split <;> rfl

lemma solvePhase_controlActive (arm : ArmConfig) (s : ArmState) :
    (solvePhase arm s).controlActive = s.controlActive := rfl

lemma solvePhase_ikWasEnabled (arm : ArmConfig) (s : ArmState) :
    (solvePhase arm s).ikWasEnabled = s.ikWasEnabled := rfl

lemma releasePhase_ikWasEnabled (arm : ArmConfig) (ikP : Bool) (k : Key → Bool)
    (w : World) (s : ArmState) :
    (releasePhase arm ikP k w s).state.ikWasEnabled = s.ikWasEnabled := by
  unfold releasePhase
  split <;> rfl

lemma seizePhase_ctrl (arm : ArmConfig) (ikP : Bool) (k : Key → Bool)
    (w : World) (s : ArmState) :
    (seizePhase arm ikP k w s).world.ctrl = w.ctrl := by
  unfold seizePhase
  split <;> rfl

lemma releasePhase_ctrl (arm : ArmConfig) (ikP : Bool) (k : Key → Bool)
    (w : World) (s : ArmState) :
    (releasePhase arm ikP k w s).world.ctrl = w.ctrl := by
  unfold releasePhase
  split <;> rfl

lemma seizePhase_of_no_key (arm : ArmConfig) (ikP : Bool) (k : Key → Bool)
    (w : World) (s : ArmState) (h : anyArmKey arm k = false) :
    seizePhase arm ikP k w s = { state := s, world := w, calls := [] } := by
  unfold seizePhase
  simp [h]

lemma releasePhase_of_key (arm : ArmConfig) (ikP : Bool) (k : Key → Bool)
    (w : World) (s : ArmState) (h : anyArmKey arm k = true) :
    releasePhase arm ikP k w s = { state := s, world := w, calls := [] } := by
  unfold releasePhase
  simp [h]

lemma armRun_append (arm : ArmConfig) (ikP : Bool)
    (l1 l2 : List (Key → Bool)) (s : ArmState) (w : World) :
    armRun arm ikP (l1 ++ l2) s w =
      armRun arm ikP l2 (armRun arm ikP l1 s w).1 (armRun arm ikP l1 s w).2 := by
  unfold armRun
  rw [List.foldl_append]

lemma armRun_single (arm : ArmConfig) (ikP : Bool) (kk : Key → Bool)
    (s : ArmState) (w : World) :
    armRun arm ikP [kk] s w =
      ((armStep arm ikP kk s w).state, (armStep arm ikP kk s w).world) := rfl

/-- Claim C5: while the gripper key is continuously held the latch flips
exactly once, on the first step of the hold (every prefix of the hold run
shows the once-flipped value and a recorded key-down), and a step without
the key held leaves the latch unchanged and re-arms the edge detector so a
later hold flips it again. -/
theorem gripper_edge_trigger (arm : ArmConfig) (ikP : Bool)
    (ks : List (Key → Bool)) (s : ArmState) (w : World)
    (hhold : ∀ kk ∈ ks, armKey arm kk 10 = true)
    (h0 : s.gripperKeyWasDown = false) :
    (∀ i, i < ks.length →
      (armRun arm ikP (ks.take (i+1)) s w).1.gripperOpen = !s.gripperOpen ∧
      (armRun arm ikP (ks.take (i+1)) s w).1.gripperKeyWasDown = true) ∧
    (∀ (kk : Key → Bool) (s' : ArmState) (w' : World), armKey arm kk 10 = false →
      (armStep arm ikP kk s' w').state.gripperOpen = s'.gripperOpen ∧
      (armStep arm ikP kk s' w').state.gripperKeyWasDown = false) := by
  constructor
  · intro i
    induction i with
    | zero =>
      intro hi
      cases ks with
      | nil => simp at hi
      | cons k0 rest =>
        have hk0 : armKey arm k0 10 = true := hhold k0 (List.mem_cons_self k0 rest)
        have htake : (k0 :: rest).take 1 = [k0] := rfl
        rw [htake, armRun_single, armStep_gripperOpen, armStep_gripperKeyWasDown,
          hk0, h0]
        simp
    | succ n ih =>
      intro hi
      have hn : n < ks.length := Nat.lt_of_succ_lt hi
      have ihh := ih hn
      have hget : ks[n + 1]? = some (ks.get ⟨n + 1, hi⟩) := by
        rw [List.getElem?_eq_getElem hi]
        rfl
      have htake : ks.take (n + 1 + 1) = ks.take (n + 1) ++ [ks.get ⟨n + 1, hi⟩] := by
        rw [List.take_succ, hget]
        rfl
      have hk := hhold (ks.get ⟨n + 1, hi⟩) (List.get_mem ks (n + 1) hi)
      rw [htake, armRun_append, armRun_single, armStep_gripperOpen,
        armStep_gripperKeyWasDown, hk, ihh.1, ihh.2]
      simp
  · intro kk s' w' hk
    rw [armStep_gripperOpen, armStep_gripperKeyWasDown, hk]
    simp

/-- A concrete 6-actuator arm with the 11 keys 0..10 bound, used by the
controller witnesses. -/
def armA : ArmConfig :=
  { indices := [0, 1, 2, 3, 4, 5]
    keys := [0, 1, 2, 3, 4, 5, 6, 7, 8, 9, 10]
    initialJoints := none
    initialRotation := none
    initialRoll := none
    linkage := none
    tipLength := none
    gripperOpen := none
    gripperClosed := none }

/-- Key snapshot with every key held. -/
def kAll : Key → Bool := fun _ => true

/-- Key snapshot with no key held. -/
def kNone : Key → Bool := fun _ => false

/-- A concrete quiescent arm state used by the controller witnesses. -/
noncomputable def sIdle : ArmState :=
  { targetJoints := [0, 0, 0, 0, 0, 0]
    eePos := (0, 0)
    pitch := 0
    gripperOpen := false
    gripperKeyWasDown := false
    controlActive := false
    ikWasEnabled := false }

/-- A concrete world with zero commands and external IK disabled. -/
noncomputable def wZero : World :=
  { ctrl := fun _ => 0, ikEnabled := false }

/-- Witness for claim C5: one step of holding every key (so in particular
the gripper key) from the quiescent state. -/
theorem gripper_edge_trigger_witness :
    (∀ kk ∈ [kAll], armKey armA kk 10 = true) ∧
    sIdle.gripperKeyWasDown = false ∧
    ((∀ i, i < [kAll].length →
      (armRun armA true ([kAll].take (i+1)) sIdle wZero).1.gripperOpen
        = !sIdle.gripperOpen ∧
      (armRun armA true ([kAll].take (i+1)) sIdle wZero).1.gripperKeyWasDown
        = true) ∧
    (∀ (kk : Key → Bool) (s' : ArmState) (w' : World), armKey armA kk 10 = false →
      (armStep armA true kk s' w').state.gripperOpen = s'.gripperOpen ∧
      (armStep armA true kk s' w').state.gripperKeyWasDown = false)) := by
  have h1 : ∀ kk ∈ [kAll], armKey armA kk 10 = true := by
    intro kk hkk
    have hk : kk = kAll := by simpa using hkk
    subst hk
    rfl
  have h2 : sIdle.gripperKeyWasDown = false := rfl
  exact ⟨h1, h2, gripper_edge_trigger armA true [kAll] sIdle wZero h1 h2⟩

lemma armStep_state_eq (arm : ArmConfig) (ikP : Bool) (k : Key → Bool)
    (s : ArmState) (w : World) :
    (armStep arm ikP k s w).state = solvePhase arm (gripperPhase arm k
      (movePhase arm k (releasePhase arm ikP k (seizePhase arm ikP k w s).world
        (seizePhase arm ikP k w s).state).state)) := rfl

lemma armStep_calls_eq (arm : ArmConfig) (ikP : Bool) (k : Key → Bool)
    (s : ArmState) (w : World) :
    (armStep arm ikP k s w).calls = (seizePhase arm ikP k w s).calls ++
      (releasePhase arm ikP k (seizePhase arm ikP k w s).world
        (seizePhase arm ikP k w s).state).calls := rfl

lemma armStep_ikFlag_eq (arm : ArmConfig) (ikP : Bool) (k : Key → Bool)
    (s : ArmState) (w : World) :
    (armStep arm ikP k s w).world.ikEnabled =
      (releasePhase arm ikP k (seizePhase arm ikP k w s).world
        (seizePhase arm ikP k w s).state).world.ikEnabled := rfl

lemma armStep_controlActive (arm : ArmConfig) (ikP : Bool) (k : Key → Bool)
    (s : ArmState) (w : World) :
    (armStep arm ikP k s w).state.controlActive =
      (releasePhase arm ikP k (seizePhase arm ikP k w s).world
        (seizePhase arm ikP k w s).state).state.controlActive := by
  rw [armStep_state_eq, solvePhase_controlActive, gripperPhase_controlActive,
    movePhase_controlActive]

lemma releasePhase_of_idle (arm : ArmConfig) (ikP : Bool) (k : Key → Bool)
    (w : World) (s : ArmState) (h : anyArmKey arm k = false) :
    releasePhase arm ikP k w s =
      { state := { s with controlActive := false }
        world := { w with ikEnabled :=
          if s.controlActive && s.ikWasEnabled && ikP then true else w.ikEnabled }
        calls := if s.controlActive && s.ikWasEnabled && ikP then
            [IkCall.sync, IkCall.setEnabled true]
          else [] } := by
  unfold releasePhase
  rw [h]
  rfl

/-- Claim C6: on the step where no movement key is held while controlActive,
ikWasEnabled and the external IK handle are all present/true, the controller
issues exactly the two calls syncTargetToSite then setIkEnabled(true), in
that order, and deactivates; on any further idle step (no movement key,
control inactive) no call is issued at all. -/
theorem release_restore (arm : ArmConfig) (ikP : Bool) (k : Key → Bool)
    (s : ArmState) (w : World)
    (hkey : anyArmKey arm k = false)
    (hact : s.controlActive = true)
    (hwas : s.ikWasEnabled = true)
    (hp : ikP = true) :
    (armStep arm ikP k s w).calls = [IkCall.sync, IkCall.setEnabled true] ∧
    (armStep arm ikP k s w).state.controlActive = false ∧
    (∀ (k' : Key → Bool) (s' : ArmState) (w' : World),
      anyArmKey arm k' = false → s'.controlActive = false →
      (armStep arm ikP k' s' w').calls = [] ∧
      (armStep arm ikP k' s' w').state.controlActive = false) := by
  have hseize := seizePhase_of_no_key arm ikP k w s hkey
  have hfire : (s.controlActive && s.ikWasEnabled && ikP) = true := by
    rw [hact, hwas, hp]
    rfl
  refine ⟨?_, ?_, ?_⟩
  · rw [armStep_calls_eq, hseize]
    show [] ++ (releasePhase arm ikP k w s).calls = _
    rw [releasePhase_of_idle arm ikP k w s hkey]
    show (if s.controlActive && s.ikWasEnabled && ikP then
        [IkCall.sync, IkCall.setEnabled true] else []) = _
    rw [hfire]
    rfl
  · rw [armStep_controlActive, hseize]
    show (releasePhase arm ikP k w s).state.controlActive = false
    rw [releasePhase_of_idle arm ikP k w s hkey]
  · intro k' s' w' hkey' hact'
    have hseize' := seizePhase_of_no_key arm ikP k' w' s' hkey'
    have hfire' : (s'.controlActive && s'.ikWasEnabled && ikP) = false := by
      rw [hact']
      rfl
    constructor
    · rw [armStep_calls_eq, hseize']
      show [] ++ (releasePhase arm ikP k' w' s').calls = _
      rw [releasePhase_of_idle arm ikP k' w' s' hkey']
      show (if s'.controlActive && s'.ikWasEnabled && ikP then
          [IkCall.sync, IkCall.setEnabled true] else []) = _
      rw [hfire']
      rfl
    · rw [armStep_controlActive, hseize']
      show (releasePhase arm ikP k' w' s').state.controlActive = false
      rw [releasePhase_of_idle arm ikP k' w' s' hkey']

/-- An arm state identical to sIdle except that keyboard control is active
and external IK was enabled at seizure time. -/
noncomputable def sActive : ArmState :=
  { targetJoints := [0, 0, 0, 0, 0, 0]
    eePos := (0, 0)
    pitch := 0
    gripperOpen := false
    gripperKeyWasDown := false
    controlActive := true
    ikWasEnabled := true }

/-- Witness for claim C6: releasing all keys from the active state with
ikWasEnabled recorded and the handle present. -/
theorem release_restore_witness :
    anyArmKey armA kNone = false ∧ sActive.controlActive = true ∧
    sActive.ikWasEnabled = true ∧ (true : Bool) = true ∧
    ((armStep armA true kNone sActive wZero).calls
        = [IkCall.sync, IkCall.setEnabled true] ∧
      (armStep armA true kNone sActive wZero).state.controlActive = false ∧
      (∀ (k' : Key → Bool) (s' : ArmState) (w' : World),
        anyArmKey armA k' = false → s'.controlActive = false →
        (armStep armA true k' s' w').calls = [] ∧
        (armStep armA true k' s' w').state.controlActive = false)) := by
  have h1 : anyArmKey armA kNone = false := rfl
  have h2 : sActive.controlActive = true := rfl
  have h3 : sActive.ikWasEnabled = true := rfl
  exact ⟨h1, h2, h3, rfl,
    release_restore armA true kNone sActive wZero h1 h2 h3 rfl⟩

/-- Claim C2: on the step where a movement key first becomes held while the
controller is idle, the seize block copies each actuator's commanded value
from ctrl into targetJoints, recomputes eePos by forward kinematics from
joints 1-2 and pitch from joints 1-3, activates keyboard control, records
whether external IK was enabled at that instant, and if it was, the step
issues exactly the disable call and leaves the external IK disabled. -/
theorem seize_resync (arm : ArmConfig) (ikP : Bool) (k : Key → Bool)
    (s : ArmState) (w : World)
    (_hlen : 4 ≤ arm.indices.length)
    (hkey : anyArmKey arm k = true)
    (hact : s.controlActive = false) :
    (seizePhase arm ikP k w s).state.targetJoints = arm.indices.map w.ctrl ∧
    (seizePhase arm ikP k w s).state.eePos = forwardKinematics2Link
      ((arm.indices.map w.ctrl).getD 1 0) ((arm.indices.map w.ctrl).getD 2 0)
      (armLinkage arm) ∧
    (seizePhase arm ikP k w s).state.pitch = (arm.indices.map w.ctrl).getD 3 0 -
      (arm.indices.map w.ctrl).getD 1 0 + (arm.indices.map w.ctrl).getD 2 0 ∧
    (seizePhase arm ikP k w s).state.controlActive = true ∧
    (armStep arm ikP k s w).state.ikWasEnabled = (ikP && w.ikEnabled) ∧
    ((ikP && w.ikEnabled) = true →
      (armStep arm ikP k s w).calls = [IkCall.setEnabled false] ∧
      (armStep arm ikP k s w).world.ikEnabled = false) := by
  have hcond : (anyArmKey arm k && !s.controlActive) = true := by
    rw [hkey, hact]
    rfl
  have hseize : seizePhase arm ikP k w s =
      { state :=
          { s with
            targetJoints := arm.indices.map w.ctrl
            eePos := forwardKinematics2Link ((arm.indices.map w.ctrl).getD 1 0)
              ((arm.indices.map w.ctrl).getD 2 0) (armLinkage arm)
            pitch := (arm.indices.map w.ctrl).getD 3 0 -
              (arm.indices.map w.ctrl).getD 1 0 + (arm.indices.map w.ctrl).getD 2 0
            ikWasEnabled := ikP && w.ikEnabled
            controlActive := true }
        world := { w with ikEnabled :=
          if ikP && w.ikEnabled then false else w.ikEnabled }
        calls := if ikP && w.ikEnabled then [IkCall.setEnabled false] else [] } := by
    unfold seizePhase
    rw [if_pos hcond]
  have hrel := releasePhase_of_key arm ikP k
    (seizePhase arm ikP k w s).world (seizePhase arm ikP k w s).state hkey
  refine ⟨by rw [hseize], by rw [hseize], by rw [hseize], by rw [hseize], ?_, ?_⟩
  · rw [armStep_state_eq, solvePhase_ikWasEnabled, gripperPhase_ikWasEnabled,
      movePhase_ikWasEnabled, hrel]
    show (seizePhase arm ikP k w s).state.ikWasEnabled = _
    rw [hseize]
  · intro hen
    constructor
    · rw [armStep_calls_eq, hrel]
      show (seizePhase arm ikP k w s).calls ++ [] = _
      rw [hseize]
      show (if ikP && w.ikEnabled then [IkCall.setEnabled false] else []) ++ [] = _
      rw [hen]
      rfl
    · rw [armStep_ikFlag_eq, hrel]
      show (seizePhase arm ikP k w s).world.ikEnabled = false
      rw [hseize]
      show (if ikP && w.ikEnabled then false else w.ikEnabled) = false
      rw [hen]
      rfl

/-- Witness for claim C2: pressing every key while idle, with external IK
present and enabled. -/
theorem seize_resync_witness :
    4 ≤ armA.indices.length ∧ anyArmKey armA kAll = true ∧
    sIdle.controlActive = false ∧
    ((seizePhase armA true kAll { wZero with ikEnabled := true } sIdle).state.targetJoints
        = armA.indices.map (wZero.ctrl) ∧
      (seizePhase armA true kAll { wZero with ikEnabled := true } sIdle).state.eePos
        = forwardKinematics2Link
          ((armA.indices.map (wZero.ctrl)).getD 1 0)
          ((armA.indices.map (wZero.ctrl)).getD 2 0) (armLinkage armA) ∧
      (seizePhase armA true kAll { wZero with ikEnabled := true } sIdle).state.pitch
        = (armA.indices.map (wZero.ctrl)).getD 3 0 -
          (armA.indices.map (wZero.ctrl)).getD 1 0 +
          (armA.indices.map (wZero.ctrl)).getD 2 0 ∧
      (seizePhase armA true kAll { wZero with ikEnabled := true } sIdle).state.controlActive
        = true ∧
      (armStep armA true kAll sIdle { wZero with ikEnabled := true }).state.ikWasEnabled
        = (true && ({ wZero with ikEnabled := true } : World).ikEnabled) ∧
      ((true && ({ wZero with ikEnabled := true } : World).ikEnabled) = true →
        (armStep armA true kAll sIdle { wZero with ikEnabled := true }).calls
          = [IkCall.setEnabled false] ∧
        (armStep armA true kAll sIdle { wZero with ikEnabled := true }).world.ikEnabled
          = false)) := by
  have h0 : 4 ≤ armA.indices.length := by norm_num [armA]
  have h1 : anyArmKey armA kAll = true := rfl
  have h2 : sIdle.controlActive = false := rfl
  refine ⟨h0, h1, h2, ?_⟩
  have h := seize_resync armA true kAll sIdle { wZero with ikEnabled := true }
    h0 h1 h2
  exact h

lemma writePhase_of_inactive (arm : ArmConfig) (s : ArmState) (ctrl : ℕ → ℝ)
    (hne : arm.indices ≠ []) (hact : s.controlActive = false) :
    writePhase arm s ctrl =
      (Function.update ctrl (arm.indices.getLast hne)
        (s.targetJoints.getD (arm.indices.length - 1) 0),
       [(arm.indices.getLast hne, s.targetJoints.getD (arm.indices.length - 1) 0)]) := by
  unfold writePhase
  rw [hact, List.getLast?_eq_getLast _ hne]
  simp

lemma writePhase_writes_last (arm : ArmConfig) (s : ArmState) (ctrl : ℕ → ℝ)
    (hne : arm.indices ≠ []) :
    (writePhase arm s ctrl).2.getLast? =
      some (arm.indices.getLast hne,
        s.targetJoints.getD (arm.indices.length - 1) 0) := by
  unfold writePhase
  rw [List.getLast?_eq_getLast _ hne]
  simp [List.getLast?_concat]

lemma armStep_writes_eq (arm : ArmConfig) (ikP : Bool) (k : Key → Bool)
    (s : ArmState) (w : World) :
    (armStep arm ikP k s w).writes =
      (writePhase arm (armStep arm ikP k s w).state w.ctrl).2 := by
  simp only [armStep]
  rw [releasePhase_ctrl, seizePhase_ctrl]

lemma armStep_ctrl_eq (arm : ArmConfig) (ikP : Bool) (k : Key → Bool)
    (s : ArmState) (w : World) :
    (armStep arm ikP k s w).world.ctrl =
      (writePhase arm (armStep arm ikP k s w).state w.ctrl).1 := by
  simp only [armStep]
  rw [releasePhase_ctrl, seizePhase_ctrl]

/-- Claim C7: whenever keyboard control is inactive at write time, the arm
issues exactly one actuator write, to the gripper (last) index, so every
other ctrl entry is left unchanged by the arm update; and on every step,
whatever the state, the final write of the arm is the gripper actuator set
to targetJoints' last slot. -/
theorem gripper_write_every_step (arm : ArmConfig) (ikP : Bool)
    (k : Key → Bool) (s : ArmState) (w : World) (hne : arm.indices ≠ []) :
    ((armStep arm ikP k s w).state.controlActive = false →
      (armStep arm ikP k s w).writes =
        [(arm.indices.getLast hne,
          (armStep arm ikP k s w).state.targetJoints.getD
            (arm.indices.length - 1) 0)] ∧
      ∀ n, n ≠ arm.indices.getLast hne →
        (armStep arm ikP k s w).world.ctrl n = w.ctrl n) ∧
    (armStep arm ikP k s w).writes.getLast? =
      some (arm.indices.getLast hne,
        (armStep arm ikP k s w).state.targetJoints.getD
          (arm.indices.length - 1) 0) := by
  constructor
  · intro hact
    have hw := writePhase_of_inactive arm (armStep arm ikP k s w).state w.ctrl
      hne hact
    constructor
    · rw [armStep_writes_eq, hw]
    · intro n hn
      rw [armStep_ctrl_eq, hw]
      exact Function.update_noteq hn _ _
  · rw [armStep_writes_eq]
    exact writePhase_writes_last arm (armStep arm ikP k s w).state w.ctrl hne

/-- Witness for claim C7: an idle step of the concrete arm. -/
theorem gripper_write_every_step_witness :
    armA.indices ≠ [] ∧
    (((armStep armA true kNone sIdle wZero).state.controlActive = false →
      (armStep armA true kNone sIdle wZero).writes =
        [(armA.indices.getLast (by decide),
          (armStep armA true kNone sIdle wZero).state.targetJoints.getD
            (armA.indices.length - 1) 0)] ∧
      ∀ n, n ≠ armA.indices.getLast (by decide) →
        (armStep armA true kNone sIdle wZero).world.ctrl n = wZero.ctrl n) ∧
    (armStep armA true kNone sIdle wZero).writes.getLast? =
      some (armA.indices.getLast (by decide),
        (armStep armA true kNone sIdle wZero).state.targetJoints.getD
          (armA.indices.length - 1) 0)) := by
  have hne : armA.indices ≠ [] := by decide
  exact ⟨hne, gripper_write_every_step armA true kNone sIdle wZero hne⟩

/-- Claim C9: per base drive axis, when neither of its keys is held, the
axis write is a single zero exactly on the step whose previous-step active
flag is set (which is then cleared), and nothing at all on later idle steps.
-/
theorem base_edge_zero (b : BaseConfig) (k : Key → Bool) (prev : Bool × Bool)
    (ctrl : ℕ → ℝ)
    (h0 : k b.keys.1 = false) (h1 : k b.keys.2.1 = false)
    (h2 : k b.keys.2.2.1 = false) (h3 : k b.keys.2.2.2 = false) :
    (baseStep b k prev ctrl).2.1 = (false, false) ∧
    (baseStep b k prev ctrl).2.2 =
      (if prev.1 then [(b.indices.1, (0:ℝ))] else []) ++
      (if prev.2 then [(b.indices.2, (0:ℝ))] else []) ∧
    (prev = (false, false) → (baseStep b k prev ctrl).1 = ctrl) := by
  unfold baseStep driveAxis
  rw [h0, h1, h2, h3]
  rcases prev with ⟨p1, p2⟩
  cases p1 <;> cases p2 <;> simp

/-- A concrete two-axis base with keys 20..23. -/
def baseA : BaseConfig :=
  { indices := (0, 1), keys := (20, 21, 22, 23), speed := none }

/-- Witness for claim C9: the step right after releasing the linear drive
(previous flag set on axis 0 only), with no base key held. -/
theorem base_edge_zero_witness :
    kNone baseA.keys.1 = false ∧ kNone baseA.keys.2.1 = false ∧
    kNone baseA.keys.2.2.1 = false ∧ kNone baseA.keys.2.2.2 = false ∧
    ((baseStep baseA kNone (true, false) wZero.ctrl).2.1 = (false, false) ∧
     (baseStep baseA kNone (true, false) wZero.ctrl).2.2 =
       (if (true, false).1 then [(baseA.indices.1, (0:ℝ))] else []) ++
       (if (true, false).2 then [(baseA.indices.2, (0:ℝ))] else []) ∧
     ((true, false) = (false, false) →
       (baseStep baseA kNone (true, false) wZero.ctrl).1 = wZero.ctrl)) :=
  ⟨rfl, rfl, rfl, rfl,
    base_edge_zero baseA kNone (true, false) wZero.ctrl rfl rfl rfl rfl⟩

/-- A deliberately under-specified configuration: six actuator indices but
only one key binding and a one-entry initialJoints list. -/
noncomputable def armShort : ArmConfig :=
  { indices := [0, 1, 2, 3, 4, 5]
    keys := [7]
    initialJoints := some [9]
    initialRotation := none
    initialRoll := none
    linkage := none
    tipLength := none
    gripperOpen := none
    gripperClosed := none }

/-- Counterexample to claim C8: a configuration with one key binding
(instead of 11) and a one-entry initialJoints list (shorter than the six
actuator indices) is neither rejected at construction nor at stepping: the
controller state is built by truncation (only targetJoints[0] taken from
initialJoints, the rest zero, eePos/pitch falling back to defaults), key
scanning covers the single provided binding, and the unbound logical action
1 simply reads as "not held" even with every key held. -/
theorem short_config_not_rejected :
    armInit armShort =
      { targetJoints := [9, 0, 0, 0, 0, 0]
        eePos := INITIAL_EE
        pitch := 0
        gripperOpen := false
        gripperKeyWasDown := false
        controlActive := false
        ikWasEnabled := false } ∧
    anyArmKey armShort kAll = true ∧
    armKey armShort kAll 1 = false := by
  refine ⟨?_, rfl, rfl⟩
  rfl

/-- Claim C8 (amended): a configuration with fewer key bindings than the 11
logical actions, or an initialJoints list shorter than the actuator-index
list, is tolerated by the documented truncation behavior rather than
rejected: targetJoints keeps length |indices| with only the first
min(|initialJoints|, |indices|) slots copied and the rest zero, eePos and
pitch fall back to their defaults when initialJoints has fewer than 3
(resp. 4) entries, and any logical action whose binding is missing reads as
"not held". -/
theorem short_config_truncation (arm : ArmConfig) (ij : List ℝ)
    (hij : arm.initialJoints = some ij) :
    (armInit arm).targetJoints.length = arm.indices.length ∧
    (∀ j, j < arm.indices.length →
      (armInit arm).targetJoints.getD j 0 =
        (if j < ij.length then ij.getD j 0 else 0)) ∧
    (ij.length < 3 → (armInit arm).eePos = INITIAL_EE) ∧
    (ij.length < 4 → (armInit arm).pitch = 0) ∧
    (∀ (k : Key → Bool) (j : ℕ), arm.keys.length ≤ j → armKey arm k j = false) := by
  refine ⟨?_, ?_, ?_, ?_, ?_⟩
  · unfold armInit
    rw [hij]
    simp
  · intro j hj
    unfold armInit
    rw [hij]
    simp only [List.getD_eq_getElem?_getD, List.getElem?_map, List.getElem?_range,
      hj]
    rfl
  · intro h3
    unfold armInit
    rw [hij]
    simp only [if_neg (by omega : ¬ 3 ≤ ij.length)]
  · intro h4
    unfold armInit
    rw [hij]
    simp only [if_neg (by omega : ¬ 4 ≤ ij.length)]
  · intro k j hj
    unfold armKey
    rw [List.get?_eq_none.mpr hj]

/-- Witness for the amended claim C8 at the concrete under-specified
configuration armShort. -/
theorem short_config_truncation_witness :
    armShort.initialJoints = some [9] ∧
    ((armInit armShort).targetJoints.length = armShort.indices.length ∧
    (∀ j, j < armShort.indices.length →
      (armInit armShort).targetJoints.getD j 0 =
        (if j < [(9:ℝ)].length then [(9:ℝ)].getD j 0 else 0)) ∧
    ([(9:ℝ)].length < 3 → (armInit armShort).eePos = INITIAL_EE) ∧
    ([(9:ℝ)].length < 4 → (armInit armShort).pitch = 0) ∧
    (∀ (k : Key → Bool) (j : ℕ), armShort.keys.length ≤ j →
      armKey armShort k j = false)) :=
  ⟨rfl, short_config_truncation armShort [(9:ℝ)] rfl⟩

/-- Witness for claim C10 on the concrete linkage P1. -/
theorem fk_in_annulus_witness :
    (0 < P1.l1) ∧ (0 < P1.l2) ∧
    (∀ joint2 joint3 : ℝ,
      |P1.l1 - P1.l2| ≤ ikR (forwardKinematics2Link joint2 joint3 P1).1
        (forwardKinematics2Link joint2 joint3 P1).2 ∧
      ikR (forwardKinematics2Link joint2 joint3 P1).1
        (forwardKinematics2Link joint2 joint3 P1).2 ≤ P1.l1 + P1.l2) := by
  have e1 : (0:ℝ) < P1.l1 := by rw [P1_l1]; norm_num
  have e2 : (0:ℝ) < P1.l2 := by rw [P1_l2]; norm_num
  exact ⟨e1, e2, fk_in_annulus P1 e1 e2⟩

end ArmCore
